import Mathlib

/-!
Verification of the paste-aware line-editing engine
(`src/cli/components/PasteAwareTextInput.tsx`).

The component's mutable refs and React state are embedded as an explicit
`InputState`; the event handlers become pure functions on that state which
additionally return the list of outward notifications (`onChange`,
`onCursorMove`) they fire.  Text is modelled as `List Char` (one entry per
UTF-16 code unit; all characters appearing in the claims are in the BMP, so
this agrees with JavaScript string indexing).  JavaScript `slice(0, k)` /
`slice(k)` on non-negative in-range-or-beyond indices are `List.take` /
`List.drop`.
-/

namespace PasteAware

/-- Outward notifications fired by the component: `onChange(newValue)` and
`onCursorMove(position)`. -/
inductive Emit where
  | change (v : List Char)
  | cursorMove (p : Nat)
deriving DecidableEq

/-- The component's internal state: `valueRef.current`, `caretOffsetRef.current`,
`lastEmittedValueRef.current` and the `displayValue` React state. -/
structure InputState where
  value : List Char
  caret : Nat
  lastEmitted : List Char
  display : List Char
deriving DecidableEq

/-- ECMAScript regular-expression class `\s` membership test for one character. -/
def isJsSpace (c : Char) : Bool :=
  let n := c.toNat
  n == 32 || n == 9 || n == 10 || n == 11 || n == 12 || n == 13 ||
  n == 0xA0 || n == 0x1680 || (0x2000 ≤ n && n ≤ 0x200A) ||
  n == 0x2028 || n == 0x2029 || n == 0x202F || n == 0x205F ||
  n == 0x3000 || n == 0xFEFF

/-- `/\s/.test(text.charAt(pos))`: `charAt` out of range yields the empty
string, on which the test is `false`. -/
def wsAt (text : List Char) (pos : Nat) : Bool :=
  match text.get? pos with
  | some c => isJsSpace c
  | none => false

/-- `/\S/.test(text.charAt(pos))`: `charAt` out of range yields the empty
string, on which the test is `false`. -/
def nonWsAt (text : List Char) (pos : Nat) : Bool :=
  match text.get? pos with
  | some c => !isJsSpace c
  | none => false

/-- `while (pos > 0 && p(text, pos)) pos--;` -/
def skipBack (p : List Char → Nat → Bool) (text : List Char) : Nat → Nat
  | 0 => 0
  | n + 1 => if p text (n + 1) then skipBack p text n else n + 1

/-- `while (pos < text.length && p(text, pos)) pos++;`, driven by explicit
fuel (`text.length` suffices since `pos` increases towards `text.length`). -/
def skipFwd (p : List Char → Nat → Bool) (text : List Char) : Nat → Nat → Nat
  | 0, pos => pos
  | fuel + 1, pos =>
    if pos < text.length && p text pos then skipFwd p text fuel (pos + 1)
    else pos

/-- `findPreviousWordBoundary` (source lines 37-59). -/
def findPreviousWordBoundary (text : List Char) (cursorPos : Nat) : Nat :=
  if cursorPos = 0 then 0
  else
    let pos := cursorPos - 1
    let pos := skipBack wsAt text pos
    let pos := skipBack nonWsAt text pos
    if 0 < pos && wsAt text pos then pos + 1 else pos

/-- `findNextWordBoundary` (source lines 62-78). -/
def findNextWordBoundary (text : List Char) (cursorPos : Nat) : Nat :=
  if text.length ≤ cursorPos then text.length
  else
    let pos := skipFwd nonWsAt text text.length cursorPos
    skipFwd wsAt text text.length pos

/-- `countLines` (source lines 27-29): global matches of `/\r\n|\r|\n/` plus 1.
The regex is leftmost non-overlapping, so `"\r\n"` counts once. -/
def countBreaks : List Char → Nat
  | [] => 0
  | '\r' :: '\n' :: rest => 1 + countBreaks rest
  | '\r' :: rest => 1 + countBreaks rest
  | '\n' :: rest => 1 + countBreaks rest
  | _ :: rest => countBreaks rest

def countLines (text : List Char) : Nat :=
  countBreaks text + 1

/-- `sanitizeForDisplay` (source lines 32-34): each line break becomes `↵`. -/
def sanitizeForDisplay : List Char → List Char
  | [] => []
  | '\r' :: '\n' :: rest => '↵' :: sanitizeForDisplay rest
  | '\r' :: rest => '↵' :: sanitizeForDisplay rest
  | '\n' :: rest => '↵' :: sanitizeForDisplay rest
  | c :: rest => c :: sanitizeForDisplay rest

/-- `updateCursor` (source lines 139-145): clamp into `[0, value.length]`,
store, notify `onCursorMove`. -/
def updateCursor (newPos : Int) (s : InputState) : InputState × List Emit :=
  let clamped : Nat := (max 0 (min newPos (s.value.length : Int))).toNat
  ({ s with caret := clamped }, [Emit.cursorMove clamped])

/-- `updateValue` (source lines 147-156): store the new value, record it as
the last emitted value, fire `onChange`, then optionally move the cursor. -/
def updateValue (newValue : List Char) (newCursor : Option Int)
    (s : InputState) : InputState × List Emit :=
  let s1 : InputState :=
    { s with value := newValue, lastEmitted := newValue, display := newValue }
  match newCursor with
  | some p =>
    let r := updateCursor p s1
    (r.1, Emit.change newValue :: r.2)
  | none => (s1, [Emit.change newValue])

/-- `deleteCharacter` (source lines 158-175): forward = Delete key,
backward = Backspace; no-ops at the buffer boundaries. -/
def deleteCharacter (forward : Bool) (s : InputState) : InputState × List Emit :=
  let current := s.value
  let pos := s.caret
  if forward then
    if pos < current.length then
      updateValue (current.take pos ++ current.drop (pos + 1)) (some (pos : Int)) s
    else (s, [])
  else
    if 0 < pos then
      updateValue (current.take (pos - 1) ++ current.drop pos) (some ((pos : Int) - 1)) s
    else (s, [])

/-- The value-sync `useEffect` (source lines 121-128): when the incoming
`value` prop differs from the last emitted value, replace the buffer and
snap the caret to end-of-text; no outward notification is fired and
`lastEmittedValueRef` is left alone. -/
def valueSyncEffect (ext : List Char) (s : InputState) : InputState × List Emit :=
  if ext ≠ s.lastEmitted then
    ({ s with value := ext, display := ext, caret := ext.length }, [])
  else (s, [])

/-- The `cursorPosition` `useEffect` (source lines 130-136): the externally
supplied offset is written into `caretOffsetRef` verbatim, without clamping. -/
def cursorPositionEffect (p : Nat) (s : InputState) : InputState × List Emit :=
  ({ s with caret := p }, [])

/-- One owner re-render delivering a new `value` prop, optionally accompanied
by a changed `cursorPosition` prop.  React runs the two effects in
declaration order: the value-sync effect first, then the cursor effect. -/
def externalUpdate (ext : List Char) (nudge : Option Nat)
    (s : InputState) : InputState × List Emit :=
  let r1 := valueSyncEffect ext s
  match nudge with
  | none => r1
  | some p =>
    let r2 := cursorPositionEffect p r1.1
    (r2.1, r1.2 ++ r2.2)

/-- Left-arrow handling (source lines 217-220). -/
def arrowLeft (s : InputState) : InputState × List Emit :=
  updateCursor ((s.caret : Int) - 1) s

/-- Right-arrow handling (source lines 221-224). -/
def arrowRight (s : InputState) : InputState × List Emit :=
  updateCursor ((s.caret : Int) + 1) s

/-- `moveCursorToPreviousWord` (source lines 330-333). -/
def moveCursorToPreviousWord (s : InputState) : InputState × List Emit :=
  updateCursor (findPreviousWordBoundary s.value s.caret : Int) s

/-- `moveCursorToNextWord` (source lines 335-338). -/
def moveCursorToNextWord (s : InputState) : InputState × List Emit :=
  updateCursor (findNextWordBoundary s.value s.caret : Int) s

/-- `deletePreviousWord` (source lines 340-348): remove the span from the
previous word boundary up to the caret in one mutation; no-op when the
boundary equals the caret. -/
def deletePreviousWord (s : InputState) : InputState × List Emit :=
  let curPos := s.caret
  let wordStart := findPreviousWordBoundary s.value curPos
  if wordStart = curPos then (s, [])
  else
    let current := s.value
    updateValue (current.take wordStart ++ current.drop curPos)
      (some (wordStart : Int)) s

/-- `input.includes('\u0008') || input.includes('\u007F')` (source line 239). -/
def hasRawBackspace (input : List Char) : Bool :=
  input.any fun c => c.toNat == 8 || c.toNat == 127

/-- Accumulator of the batch character loop (source lines 231-233):
`nextValue`, `nextPos`, `processed`. -/
structure BatchAcc where
  nextValue : List Char
  nextPos : Nat
  processed : Bool
deriving DecidableEq

/-- One iteration of the batch loop (source lines 248-266): backspace/DEL
code points delete backwards, code points ≥ 32 insert at the cursor, other
control code points are ignored. -/
def batchStep (acc : BatchAcc) (c : Char) : BatchAcc :=
  if c.toNat = 127 ∨ c.toNat = 8 then
    if 0 < acc.nextPos then
      { nextValue := acc.nextValue.take (acc.nextPos - 1) ++
          acc.nextValue.drop acc.nextPos,
        nextPos := acc.nextPos - 1, processed := true }
    else { acc with processed := true }
  else if 32 ≤ c.toNat then
    { nextValue := acc.nextValue.take acc.nextPos ++ [c] ++
        acc.nextValue.drop acc.nextPos,
      nextPos := acc.nextPos + 1, processed := true }
  else acc

/-- The detached-backspace pre-pass (source lines 239-246): when Ink reported
a Backspace key flag but the payload holds no raw backspace/DEL code point,
apply one backward deletion before the payload loop. -/
def preBackspaceAcc (backspaceKey : Bool) (input : List Char)
    (acc : BatchAcc) : BatchAcc :=
  if backspaceKey && !hasRawBackspace input then
    if 0 < acc.nextPos then
      { nextValue := acc.nextValue.take (acc.nextPos - 1) ++
          acc.nextValue.drop acc.nextPos,
        nextPos := acc.nextPos - 1, processed := true }
    else acc
  else acc

/-- The non-paste part of the `useInput` handler (source lines 229-282):
batch stream processing of a string payload, falling back to the explicit
Backspace/Delete key flags when the batch did not process anything. -/
def useInputCharPath (backspaceKey deleteKey : Bool) (input : List Char)
    (s : InputState) : InputState × List Emit :=
  if input ≠ [] then
    let a0 : BatchAcc := ⟨s.value, s.caret, false⟩
    let a2 := input.foldl batchStep (preBackspaceAcc backspaceKey input a0)
    if a2.processed then updateValue a2.nextValue (some (a2.nextPos : Int)) s
    else if backspaceKey then deleteCharacter false s
    else if deleteKey then deleteCharacter true s
    else (s, [])
  else if backspaceKey then deleteCharacter false s
  else if deleteKey then deleteCharacter true s
  else (s, [])

/-- Modelled from the spec: the external paste registry
(`../helpers/pasteRegistry`, not part of the verified sources) stores full
pasted texts under monotonic, process-lifetime-unique integer ids. -/
structure Registry where
  nextId : Nat
  records : List (Nat × List Char)
deriving DecidableEq

/-- Modelled from the spec: `allocate(fullText) -> id` of the external paste
registry — returns the next id and appends the record. -/
def allocatePaste (reg : Registry) (full : List Char) : Nat × Registry :=
  (reg.nextId,
   { nextId := reg.nextId + 1, records := reg.records ++ [(reg.nextId, full)] })

/-- The placeholder token `"[Pasted text #<id> +<lines> lines]"`
(source line 312). -/
def placeholderToken (id lines : Nat) : List Char :=
  "[Pasted text #".data ++ (Nat.repr id).data ++ " +".data ++
    (Nat.repr lines).data ++ " lines]".data

/-- `handleInsert` (source lines 293-324), parametrised by the external
clipboard/image translator `tr` (`translatePasteForImages`, not part of the
verified sources; the spec specifies it as `translate(raw) -> text`).
Classifies the insertion: paste-flagged or longer than 5 characters enters
the classification path; over 500 characters or more than 5 lines (counted
on the translated text) becomes a placeholder backed by a registry record;
anything else is inserted sanitized. -/
def handleInsert (tr : List Char → List Char) (text : List Char)
    (isPasteFlag : Bool) (s : InputState) (reg : Registry) :
    InputState × Registry × List Emit :=
  let current := s.value
  let pos := s.caret
  let isLarge := isPasteFlag || decide (5 < text.length)
  let ins :=
    if isLarge then
      let translated := tr text
      let lines := countLines translated
      if 500 < text.length ∨ 5 < lines then
        let a := allocatePaste reg translated
        (placeholderToken a.1 lines, a.2)
      else (sanitizeForDisplay translated, reg)
    else (sanitizeForDisplay text, reg)
  let next := current.take pos ++ ins.1 ++ current.drop pos
  let r := updateValue next (some ((pos : Int) + ins.1.length)) s
  (r.1, ins.2, r.2)

/-- `handleInsert` with the two external collaborators made fallible, exactly
as the source calls them: there is no `try`/`catch` anywhere in the
component, so a failure of the translator or of `allocate` propagates out of
`handleInsert` (modelled by `Except.error`). -/
def handleInsertE (tr : List Char → Except String (List Char))
    (alloc : Registry → List Char → Except String (Nat × Registry))
    (text : List Char) (isPasteFlag : Bool) (s : InputState) (reg : Registry) :
    Except String (InputState × Registry × List Emit) :=
  let current := s.value
  let pos := s.caret
  let isLarge := isPasteFlag || decide (5 < text.length)
  let insRes : Except String (List Char × Registry) :=
    if isLarge then
      match tr text with
      | Except.error e => Except.error e
      | Except.ok translated =>
        let lines := countLines translated
        if 500 < text.length ∨ 5 < lines then
          match alloc reg translated with
          | Except.error e => Except.error e
          | Except.ok a => Except.ok (placeholderToken a.1 lines, a.2)
        else Except.ok (sanitizeForDisplay translated, reg)
    else Except.ok (sanitizeForDisplay text, reg)
  match insRes with
  | Except.error e => Except.error e
  | Except.ok ins =>
    let next := current.take pos ++ ins.1 ++ current.drop pos
    let r := updateValue next (some ((pos : Int) + ins.1.length)) s
    Except.ok (r.1, ins.2, r.2)

/-- A sequence of single-character insertion events processed through the
batch path of the `useInput` handler, in order. -/
def insertChars (cs : List Char) (s : InputState) : InputState :=
  cs.foldl (fun st c => (useInputCharPath false false [c] st).1) s

/-- The initial state of a freshly mounted component with initial value `v`:
`caretOffsetRef` starts at `v.length`, both value refs at `v`. -/
def initialState (v : List Char) : InputState :=
  ⟨v, v.length, v, v⟩

/-! ## Helper lemmas -/

theorem skipBack_le (p : List Char → Nat → Bool) (text : List Char)
    (n : Nat) : skipBack p text n ≤ n := by
  induction n with
  | zero => simp [skipBack]
  | succ k ih =>
    simp only [skipBack]
    split
    · exact Nat.le_trans ih (Nat.le_succ k)
    · exact Nat.le_refl _

theorem findPreviousWordBoundary_le (text : List Char) (pos : Nat) :
    findPreviousWordBoundary text pos ≤ pos := by
  unfold findPreviousWordBoundary
  split
  · omega
  · have h1 : skipBack wsAt text (pos - 1) ≤ pos - 1 := skipBack_le _ _ _
    have h2 : skipBack nonWsAt text (skipBack wsAt text (pos - 1)) ≤
        skipBack wsAt text (pos - 1) := skipBack_le _ _ _
    dsimp only
    split <;> omega

theorem updateCursor_caret (p : Int) (s : InputState) :
    (updateCursor p s).1.caret ≤ (updateCursor p s).1.value.length := by
  simp only [updateCursor]
  omega

theorem updateValue_caret (v : List Char) (p : Int) (s : InputState) :
    (updateValue v (some p) s).1.caret ≤ (updateValue v (some p) s).1.value.length := by
  simp only [updateValue, updateCursor]
  omega

theorem batch_processed_mono (input : List Char) :
    ∀ acc : BatchAcc, acc.processed = true →
      (input.foldl batchStep acc).processed = true := by
  induction input with
  | nil => intro acc h; simpa using h
  | cons c rest ih =>
    intro acc h
    simp only [List.foldl_cons]
    apply ih
    simp only [batchStep]
    split
    · split <;> simp
    · split <;> simp [h]

/-! ## Claims -/

/-- C1. Echo reconciliation: when the owner supplies a value equal to
`lastEmittedValue` the buffer and cursor are untouched; when it differs the
buffer is replaced and the cursor snaps to end-of-text, unless an explicit
cursor nudge (a changed `cursorPosition` prop) accompanies the change, in
which case the cursor is set to that offset instead. -/
theorem claim_C1_echo_reconciliation (ext : List Char) (s : InputState) (p : Nat) :
    (ext = s.lastEmitted → externalUpdate ext none s = (s, [])) ∧
    (ext ≠ s.lastEmitted → (externalUpdate ext none s).1 =
      { s with value := ext, display := ext, caret := ext.length }) ∧
    (ext ≠ s.lastEmitted → (externalUpdate ext (some p) s).1 =
      { s with value := ext, display := ext, caret := p }) := by
  refine ⟨?_, ?_, ?_⟩ <;> intro h <;>
    simp [externalUpdate, valueSyncEffect, cursorPositionEffect, h]

theorem claim_C1_witness :
    ("xyz".data ≠ (initialState "abc".data).lastEmitted) ∧
    externalUpdate "abc".data none (initialState "abc".data) =
      (initialState "abc".data, []) ∧
    (externalUpdate "xyz".data none (initialState "abc".data)).1 =
      { initialState "abc".data with
        value := "xyz".data, display := "xyz".data, caret := 3 } ∧
    (externalUpdate "xyz".data (some 1) (initialState "abc".data)).1 =
      { initialState "abc".data with
        value := "xyz".data, display := "xyz".data, caret := 1 } :=
  ⟨by decide,
   (claim_C1_echo_reconciliation "abc".data (initialState "abc".data) 0).1 rfl,
   (claim_C1_echo_reconciliation "xyz".data (initialState "abc".data) 0).2.1
     (by decide),
   (claim_C1_echo_reconciliation "xyz".data (initialState "abc".data) 1).2.2
     (by decide)⟩

/-- C6. Word-boundary functions: `findPreviousWordBoundary` returns 0 at
position 0 and otherwise skips whitespace leftwards, then non-whitespace
leftwards, stepping right by one if it landed on whitespace;
`findNextWordBoundary` returns `length` at or past the end and otherwise
skips non-whitespace then whitespace rightwards; in particular
`findPreviousWordBoundary "hello world" 11 = 6` and
`findNextWordBoundary "hello world" 0 = 6`. -/
theorem claim_C6_word_boundaries :
    (∀ text : List Char, findPreviousWordBoundary text 0 = 0) ∧
    (∀ (text : List Char) (pos : Nat), text.length ≤ pos →
      findNextWordBoundary text pos = text.length) ∧
    (∀ (text : List Char) (pos : Nat), 0 < pos →
      findPreviousWordBoundary text pos =
        (let q := skipBack nonWsAt text (skipBack wsAt text (pos - 1))
         if 0 < q && wsAt text q then q + 1 else q)) ∧
    (∀ (text : List Char) (pos : Nat), pos < text.length →
      findNextWordBoundary text pos =
        skipFwd wsAt text text.length (skipFwd nonWsAt text text.length pos)) ∧
    findPreviousWordBoundary "hello world".data 11 = 6 ∧
    findNextWordBoundary "hello world".data 0 = 6 := by
  refine ⟨?_, ?_, ?_, ?_, by decide, by decide⟩
  · intro text; rfl
  · intro text pos h; simp [findNextWordBoundary, h]
  · intro text pos h
    have : pos ≠ 0 := by omega
    simp [findPreviousWordBoundary, this]
  · intro text pos h
    have : ¬ text.length ≤ pos := by omega
    simp [findNextWordBoundary, this]

theorem claim_C6_witness :
    findPreviousWordBoundary "hello world".data 0 = 0 ∧
    findNextWordBoundary "hello world".data 12 = "hello world".data.length ∧
    findPreviousWordBoundary "ab cd".data 4 =
      (let q := skipBack nonWsAt "ab cd".data (skipBack wsAt "ab cd".data 3)
       if 0 < q && wsAt "ab cd".data q then q + 1 else q) ∧
    findNextWordBoundary "ab cd".data 1 =
      skipFwd wsAt "ab cd".data "ab cd".data.length
        (skipFwd nonWsAt "ab cd".data "ab cd".data.length 1) :=
  ⟨claim_C6_word_boundaries.1 _,
   claim_C6_word_boundaries.2.1 _ 12 (by decide),
   claim_C6_word_boundaries.2.2.1 _ 4 (by decide),
   claim_C6_word_boundaries.2.2.2.1 _ 1 (by decide)⟩

/-- C8. Boundary deletions: Backspace with the cursor at 0 and Delete with
the cursor at `length(text)` are both no-ops — state unchanged, nothing
emitted, no error. -/
theorem claim_C8_boundary_deletions (s : InputState) :
    (s.caret = 0 → deleteCharacter false s = (s, [])) ∧
    (s.value.length ≤ s.caret → deleteCharacter true s = (s, [])) := by
  constructor <;> intro h
  · simp [deleteCharacter, h]
  · have : ¬ s.caret < s.value.length := by omega
    simp [deleteCharacter, this]

theorem claim_C8_witness :
    deleteCharacter false ⟨"ab".data, 0, "ab".data, "ab".data⟩ =
      (⟨"ab".data, 0, "ab".data, "ab".data⟩, []) ∧
    deleteCharacter true (initialState "ab".data) = (initialState "ab".data, []) :=
  ⟨(claim_C8_boundary_deletions _).1 rfl,
   (claim_C8_boundary_deletions _).2 (by decide)⟩

/-- C10. External replacement is silent: the value-sync effect fires neither
`onChange` nor `onCursorMove` and leaves `lastEmittedValue` unchanged; the
`cursorPosition` effect and `updateCursor` also never touch
`lastEmittedValue`, which is written exclusively by `updateValue`. -/
theorem claim_C10_silent_replacement :
    (∀ (ext : List Char) (s : InputState),
      (valueSyncEffect ext s).2 = [] ∧
      (valueSyncEffect ext s).1.lastEmitted = s.lastEmitted) ∧
    (∀ (p : Nat) (s : InputState),
      (cursorPositionEffect p s).2 = [] ∧
      (cursorPositionEffect p s).1.lastEmitted = s.lastEmitted) ∧
    (∀ (p : Int) (s : InputState),
      (updateCursor p s).1.lastEmitted = s.lastEmitted) ∧
    (∀ (v : List Char) (c : Option Int) (s : InputState),
      (updateValue v c s).1.lastEmitted = v) := by
  refine ⟨?_, ?_, ?_, ?_⟩
  · intro ext s
    simp only [valueSyncEffect]
    split <;> simp
  · intro p s; simp [cursorPositionEffect]
  · intro p s; simp [updateCursor]
  · intro v c s
    cases c <;> simp [updateValue, updateCursor]

theorem deleteCharacter_caret (b : Bool) (s : InputState)
    (h : s.caret ≤ s.value.length) :
    (deleteCharacter b s).1.caret ≤ (deleteCharacter b s).1.value.length := by
  simp only [deleteCharacter]
  split <;> split
  · exact updateValue_caret _ _ _
  · exact h
  · exact updateValue_caret _ _ _
  · exact h

theorem updateValue_nat_cursor (v : List Char) (p : Nat) (s : InputState)
    (hp : p ≤ v.length) :
    updateValue v (some (p : Int)) s =
      ({ s with value := v, lastEmitted := v, display := v, caret := p },
       [Emit.change v, Emit.cursorMove p]) := by
  simp only [updateValue, updateCursor]
  have hmm : (max 0 (min ((p : Nat) : Int) ((v.length : Nat) : Int))).toNat = p := by
    omega
  rw [hmm]

theorem singleChar_insert (c : Char) (s : InputState)
    (hc : 32 ≤ c.toNat) (h127 : c.toNat ≠ 127) :
    useInputCharPath false false [c] s =
      updateValue (s.value.take s.caret ++ [c] ++ s.value.drop s.caret)
        (some ((s.caret + 1 : Nat) : Int)) s := by
  have h8 : ¬ (c.toNat = 127 ∨ c.toNat = 8) := by omega
  simp [useInputCharPath, preBackspaceAcc, batchStep, h8, hc]

theorem insertChars_spec (cs : List Char) :
    ∀ s : InputState, s.caret = s.value.length →
      (∀ c ∈ cs, 32 ≤ c.toNat ∧ c.toNat ≠ 127) →
      (insertChars cs s).value = s.value ++ cs ∧
      (insertChars cs s).caret = s.value.length + cs.length := by
  induction cs with
  | nil => intro s h _; simp [insertChars, h]
  | cons c rest ih =>
    intro s h hall
    have hc := hall c (by simp)
    have hcur : s.caret + 1 ≤
        (s.value.take s.caret ++ [c] ++ s.value.drop s.caret).length := by
      simp [List.length_take]
      omega
    have hstep : (useInputCharPath false false [c] s).1 =
        { s with
            value := s.value.take s.caret ++ [c] ++ s.value.drop s.caret,
            lastEmitted := s.value.take s.caret ++ [c] ++ s.value.drop s.caret,
            display := s.value.take s.caret ++ [c] ++ s.value.drop s.caret,
            caret := s.caret + 1 } := by
      rw [singleChar_insert c s hc.1 hc.2, updateValue_nat_cursor _ _ _ hcur]
    have hcons : insertChars (c :: rest) s =
        insertChars rest (useInputCharPath false false [c] s).1 := by
      simp [insertChars]
    have hval : s.value.take s.caret ++ [c] ++ s.value.drop s.caret =
        s.value ++ [c] := by
      rw [h, List.take_length, List.drop_length, List.append_nil]
    rw [hcons, hstep]
    have := ih
      { s with
          value := s.value ++ [c],
          lastEmitted := s.value ++ [c],
          display := s.value ++ [c],
          caret := s.caret + 1 }
      (by simp [h]) (fun d hd => hall d (by simp [hd]))
    rw [hval]
    simpa [List.append_assoc, Nat.add_assoc, Nat.add_comm 1 rest.length]
      using this

/-- C3, counterexample: the claim includes the externally supplied
`cursorPosition` input among the operations that keep the cursor within
`[0, length(text)]`, but the `cursorPosition` effect writes the offset into
the caret ref verbatim: supplying `cursorPosition = 5` on the two-character
buffer `"ab"` leaves the cursor at 5 > 2. -/
theorem claim_C3_counterexample :
    (cursorPositionEffect 5 (initialState "ab".data)).1.value.length <
      (cursorPositionEffect 5 (initialState "ab".data)).1.caret := by decide

/-- C3, amended: every engine-internal operation — cursor update (which
clamps exactly as `moveCursor` is specified to), character deletion, arrow
movement, word movement, word deletion, the batch character path, insertion
through the paste classifier, and external value replacement — leaves the
cursor within `[0, length(text)]`; only the externally supplied
`cursorPosition` input escapes the clamp. -/
theorem claim_C3_cursor_invariant (s : InputState)
    (h : s.caret ≤ s.value.length) :
    (∀ p : Int, (updateCursor p s).1.caret =
        (max 0 (min p (s.value.length : Int))).toNat ∧
      (updateCursor p s).1.caret ≤ (updateCursor p s).1.value.length) ∧
    (∀ b : Bool, (deleteCharacter b s).1.caret ≤
      (deleteCharacter b s).1.value.length) ∧
    ((arrowLeft s).1.caret ≤ (arrowLeft s).1.value.length) ∧
    ((arrowRight s).1.caret ≤ (arrowRight s).1.value.length) ∧
    ((moveCursorToPreviousWord s).1.caret ≤
      (moveCursorToPreviousWord s).1.value.length) ∧
    ((moveCursorToNextWord s).1.caret ≤
      (moveCursorToNextWord s).1.value.length) ∧
    ((deletePreviousWord s).1.caret ≤ (deletePreviousWord s).1.value.length) ∧
    (∀ ext : List Char, (valueSyncEffect ext s).1.caret ≤
      (valueSyncEffect ext s).1.value.length) ∧
    (∀ (bk dk : Bool) (input : List Char),
      (useInputCharPath bk dk input s).1.caret ≤
        (useInputCharPath bk dk input s).1.value.length) ∧
    (∀ (tr : List Char → List Char) (text : List Char) (flag : Bool)
        (reg : Registry),
      (handleInsert tr text flag s reg).1.caret ≤
        (handleInsert tr text flag s reg).1.value.length) := by
  refine ⟨?_, fun b => deleteCharacter_caret b s h, updateCursor_caret _ _,
    updateCursor_caret _ _, updateCursor_caret _ _, updateCursor_caret _ _,
    ?_, ?_, ?_, ?_⟩
  · intro p
    exact ⟨rfl, updateCursor_caret _ _⟩
  · simp only [deletePreviousWord]
    split
    · exact h
    · exact updateValue_caret _ _ _
  · intro ext
    simp only [valueSyncEffect]
    split
    · simp
    · exact h
  · intro bk dk input
    simp only [useInputCharPath]
    split
    · split
      · exact updateValue_caret _ _ _
      · split
        · exact deleteCharacter_caret _ _ h
        · split
          · exact deleteCharacter_caret _ _ h
          · exact h
    · split
      · exact deleteCharacter_caret _ _ h
      · split
        · exact deleteCharacter_caret _ _ h
        · exact h
  · intro tr text flag reg
    exact updateValue_caret _ _ _

theorem claim_C3_witness :
    (initialState "ab".data).caret ≤ (initialState "ab".data).value.length ∧
    (updateCursor 7 (initialState "ab".data)).1.caret =
      (max 0 (min 7 (((initialState "ab".data).value.length : Nat) : Int))).toNat ∧
    (deleteCharacter false (initialState "ab".data)).1.caret ≤
      (deleteCharacter false (initialState "ab".data)).1.value.length ∧
    (useInputCharPath false false "xy".data (initialState "ab".data)).1.caret ≤
      (useInputCharPath false false "xy".data
        (initialState "ab".data)).1.value.length :=
  ⟨by decide,
   ((claim_C3_cursor_invariant _ (by decide)).1 7).1,
   (claim_C3_cursor_invariant _ (by decide)).2.1 false,
   (claim_C3_cursor_invariant _ (by decide)).2.2.2.2.2.2.2.2.1 false false
     "xy".data⟩

/-- C7. Word deletion: `WordDeleteBack` removes exactly the span from the
previous word boundary up to the cursor as a single mutation, leaving the
cursor at the boundary; it is a no-op with nothing emitted when the boundary
equals the cursor. -/
theorem claim_C7_word_deletion (s : InputState) (h : s.caret ≤ s.value.length) :
    (findPreviousWordBoundary s.value s.caret = s.caret →
      deletePreviousWord s = (s, [])) ∧
    (findPreviousWordBoundary s.value s.caret ≠ s.caret →
      deletePreviousWord s =
        ({ s with
            value := s.value.take (findPreviousWordBoundary s.value s.caret) ++
              s.value.drop s.caret,
            lastEmitted := s.value.take (findPreviousWordBoundary s.value s.caret) ++
              s.value.drop s.caret,
            display := s.value.take (findPreviousWordBoundary s.value s.caret) ++
              s.value.drop s.caret,
            caret := findPreviousWordBoundary s.value s.caret },
         [Emit.change (s.value.take (findPreviousWordBoundary s.value s.caret) ++
            s.value.drop s.caret),
          Emit.cursorMove (findPreviousWordBoundary s.value s.caret)])) := by
  constructor
  · intro he; simp [deletePreviousWord, he]
  · intro hne
    have hws := findPreviousWordBoundary_le s.value s.caret
    have hp : findPreviousWordBoundary s.value s.caret ≤
        (s.value.take (findPreviousWordBoundary s.value s.caret) ++
          s.value.drop s.caret).length := by
      simp [List.length_take]
      omega
    simp [deletePreviousWord, hne, updateValue_nat_cursor _ _ _ hp]

theorem claim_C7_witness :
    (initialState "hello world".data).caret ≤
      (initialState "hello world".data).value.length ∧
    findPreviousWordBoundary "hello world".data 11 ≠ 11 ∧
    deletePreviousWord (initialState "hello world".data) =
      (⟨"hello ".data, 6, "hello ".data, "hello ".data⟩,
       [Emit.change "hello ".data, Emit.cursorMove 6]) ∧
    deletePreviousWord ⟨"hello world".data, 0, "hello world".data,
        "hello world".data⟩ =
      (⟨"hello world".data, 0, "hello world".data, "hello world".data⟩, []) :=
  ⟨by decide, by decide,
   ((claim_C7_word_deletion (initialState "hello world".data)
      (by decide)).2 (by decide)).trans (by decide),
   (claim_C7_word_deletion ⟨"hello world".data, 0, "hello world".data,
      "hello world".data⟩ (by decide)).1 (by decide)⟩

/-- C9. Insertion concatenation: any finite sequence of single printable
character insertion events applied from the empty buffer yields the
concatenation of the characters in order, with the cursor at the final
length. -/
theorem claim_C9_insertion_concatenation (cs : List Char)
    (h : ∀ c ∈ cs, 32 ≤ c.toNat ∧ c.toNat ≠ 127) :
    (insertChars cs (initialState [])).value = cs ∧
    (insertChars cs (initialState [])).caret = cs.length := by
  have := insertChars_spec cs (initialState []) rfl h
  simpa [initialState] using this

theorem claim_C9_witness :
    (∀ c ∈ "hi!".data, 32 ≤ c.toNat ∧ c.toNat ≠ 127) ∧
    (insertChars "hi!".data (initialState [])).value = "hi!".data ∧
    (insertChars "hi!".data (initialState [])).caret = "hi!".data.length :=
  ⟨by decide,
   (claim_C9_insertion_concatenation "hi!".data (by decide)).1,
   (claim_C9_insertion_concatenation "hi!".data (by decide)).2⟩

/-- C4. IME/composition rule: on a multi-character (indeed any non-empty)
payload, a separately reported Backspace key flag with no literal
backspace/DEL code point in the payload applies exactly one backward
deletion before the payload pass; within the pass, code points 8 and 127
delete backwards, code points ≥ 32 insert and advance, other code points
below 32 are ignored; consequently a detached-backspace correction with one
replacement character at cursor > 0 leaves the buffer length (and cursor)
unchanged. -/
theorem claim_C4_ime_composition :
    (∀ (dk : Bool) (input : List Char) (s : InputState),
      input ≠ [] → hasRawBackspace input = false → 0 < s.caret →
      useInputCharPath true dk input s =
        (let a2 := input.foldl batchStep
          ⟨s.value.take (s.caret - 1) ++ s.value.drop s.caret, s.caret - 1, true⟩
         updateValue a2.nextValue (some (a2.nextPos : Int)) s)) ∧
    (∀ (acc : BatchAcc) (c : Char), c.toNat = 127 ∨ c.toNat = 8 →
      batchStep acc c =
        if 0 < acc.nextPos then
          ⟨acc.nextValue.take (acc.nextPos - 1) ++ acc.nextValue.drop acc.nextPos,
           acc.nextPos - 1, true⟩
        else { acc with processed := true }) ∧
    (∀ (acc : BatchAcc) (c : Char), 32 ≤ c.toNat → c.toNat ≠ 127 →
      batchStep acc c =
        ⟨acc.nextValue.take acc.nextPos ++ [c] ++ acc.nextValue.drop acc.nextPos,
         acc.nextPos + 1, true⟩) ∧
    (∀ (acc : BatchAcc) (c : Char), c.toNat < 32 → c.toNat ≠ 8 →
      batchStep acc c = acc) ∧
    (∀ (c : Char) (s : InputState), 32 ≤ c.toNat → c.toNat ≠ 127 →
      0 < s.caret → s.caret ≤ s.value.length →
      (useInputCharPath true false [c] s).1.value.length = s.value.length ∧
      (useInputCharPath true false [c] s).1.caret = s.caret) := by
  refine ⟨?_, ?_, ?_, ?_, ?_⟩
  · intro dk input s hne hraw hpos
    have hp : (input.foldl batchStep
        ⟨s.value.take (s.caret - 1) ++ s.value.drop s.caret,
         s.caret - 1, true⟩).processed = true :=
      batch_processed_mono input _ rfl
    simp [useInputCharPath, preBackspaceAcc, hne, hraw, hpos, hp]
  · intro acc c hc
    unfold batchStep
    rw [if_pos hc]
  · intro acc c hc h127
    have hno : ¬ (c.toNat = 127 ∨ c.toNat = 8) := by omega
    unfold batchStep
    rw [if_neg hno, if_pos hc]
  · intro acc c hc h8
    have hno : ¬ (c.toNat = 127 ∨ c.toNat = 8) := by omega
    have hno32 : ¬ 32 ≤ c.toNat := by omega
    unfold batchStep
    rw [if_neg hno, if_neg hno32]
  · intro c s hc h127 hpos hle
    have hno : ¬ (c.toNat = 127 ∨ c.toNat = 8) := by omega
    have hraw : hasRawBackspace [c] = false := by
      simp [hasRawBackspace]
      omega
    refine ⟨?_, ?_⟩ <;>
      simp [useInputCharPath, preBackspaceAcc, batchStep, hraw, hpos, hno, hc,
        updateValue, updateCursor, List.length_append, List.length_take,
        List.length_drop] <;>
      omega

theorem claim_C4_witness :
    hasRawBackspace "x".data = false ∧
    (useInputCharPath true false "x".data (initialState "abc".data)).1.value.length =
      (initialState "abc".data).value.length ∧
    (useInputCharPath true false "x".data (initialState "abc".data)).1.caret =
      (initialState "abc".data).caret ∧
    batchStep ⟨"ab".data, 2, false⟩ '\x7f' = ⟨"a".data, 1, true⟩ ∧
    batchStep ⟨"ab".data, 2, false⟩ 'y' = ⟨"aby".data, 3, true⟩ ∧
    batchStep ⟨"ab".data, 2, false⟩ '\x01' = ⟨"ab".data, 2, false⟩ ∧
    useInputCharPath true false "x".data (initialState "abc".data) =
      (⟨"abx".data, 3, "abx".data, "abx".data⟩,
       [Emit.change "abx".data, Emit.cursorMove 3]) :=
  ⟨by decide,
   (claim_C4_ime_composition.2.2.2.2 'x' (initialState "abc".data)
     (by decide) (by decide) (by decide) (by decide)).1,
   (claim_C4_ime_composition.2.2.2.2 'x' (initialState "abc".data)
     (by decide) (by decide) (by decide) (by decide)).2,
   (claim_C4_ime_composition.2.1 ⟨"ab".data, 2, false⟩ '\x7f'
     (by decide)).trans (by decide),
   (claim_C4_ime_composition.2.2.1 ⟨"ab".data, 2, false⟩ 'y'
     (by decide) (by decide)).trans (by decide),
   claim_C4_ime_composition.2.2.2.1 ⟨"ab".data, 2, false⟩ '\x01'
     (by decide) (by decide),
   (claim_C4_ime_composition.1 false "x".data (initialState "abc".data)
     (by decide) (by decide) (by decide)).trans (by decide)⟩

/-- C2. Paste classification: every insertion routed through the classifier
(paste-flagged, or manual and longer than 5 characters) becomes a registry
record plus exactly the placeholder token when the translated text has more
than 5 lines or the raw text more than 500 characters; otherwise the
(translated) text is inserted with newlines visually substituted; a short
manual insertion bypasses the classifier and is inserted sanitized,
regardless of the paste flag. -/
theorem updateValue_splice (ins : List Char) (s : InputState)
    (h : s.caret ≤ s.value.length) :
    (updateValue (s.value.take s.caret ++ (ins ++ s.value.drop s.caret))
        (some ((s.caret : Int) + (ins.length : Int))) s).1.value =
      s.value.take s.caret ++ (ins ++ s.value.drop s.caret) ∧
    (updateValue (s.value.take s.caret ++ (ins ++ s.value.drop s.caret))
        (some ((s.caret : Int) + (ins.length : Int))) s).1.caret =
      s.caret + ins.length := by
  refine ⟨rfl, ?_⟩
  simp only [updateValue, updateCursor, List.length_append, List.length_take,
    List.length_drop]
  omega

theorem claim_C2_paste_classification (tr : List Char → List Char)
    (text : List Char) (flag : Bool) (s : InputState) (reg : Registry)
    (hcar : s.caret ≤ s.value.length) :
    (flag = true ∨ 5 < text.length →
      (500 < text.length ∨ 5 < countLines (tr text) →
        (handleInsert tr text flag s reg).2.1.records =
          reg.records ++ [(reg.nextId, tr text)] ∧
        (handleInsert tr text flag s reg).1.value =
          s.value.take s.caret ++
            placeholderToken reg.nextId (countLines (tr text)) ++
            s.value.drop s.caret ∧
        (handleInsert tr text flag s reg).1.caret =
          s.caret + (placeholderToken reg.nextId (countLines (tr text))).length) ∧
      (¬ (500 < text.length ∨ 5 < countLines (tr text)) →
        (handleInsert tr text flag s reg).2.1 = reg ∧
        (handleInsert tr text flag s reg).1.value =
          s.value.take s.caret ++ sanitizeForDisplay (tr text) ++
            s.value.drop s.caret ∧
        (handleInsert tr text flag s reg).1.caret =
          s.caret + (sanitizeForDisplay (tr text)).length)) ∧
    (flag = false ∧ text.length ≤ 5 →
      (handleInsert tr text flag s reg).2.1 = reg ∧
      (handleInsert tr text flag s reg).1.value =
        s.value.take s.caret ++ sanitizeForDisplay text ++
          s.value.drop s.caret ∧
      (handleInsert tr text flag s reg).1.caret =
        s.caret + (sanitizeForDisplay text).length) := by
  constructor
  · intro hroute
    have hlarge : (flag || decide (5 < text.length)) = true := by
      rcases hroute with h1 | h1 <;> simp [h1]
    constructor <;> intro hbig
    · simp [handleInsert, hlarge, hbig, allocatePaste]
      exact updateValue_splice _ s hcar
    · simp [handleInsert, hlarge, hbig]
      exact updateValue_splice _ s hcar
  · intro hman
    have hlarge : (flag || decide (5 < text.length)) = false := by
      simp [hman.1]
      omega
    simp [handleInsert, hlarge]
    exact updateValue_splice _ s hcar

theorem claim_C2_witness :
    (5 < "a\nb\nc\nd\ne\nf\ng".data.length ∧
      5 < countLines (id "a\nb\nc\nd\ne\nf\ng".data)) ∧
    (handleInsert id "a\nb\nc\nd\ne\nf\ng".data false (initialState [])
      ⟨0, []⟩).2.1.records = [(0, "a\nb\nc\nd\ne\nf\ng".data)] ∧
    (handleInsert id "a\nb\nc\nd\ne\nf\ng".data false (initialState [])
      ⟨0, []⟩).1.value = "[Pasted text #0 +7 lines]".data ∧
    (handleInsert id "a\nb\nc\nd\ne\nf\ng".data false (initialState [])
      ⟨0, []⟩).1.caret = 25 ∧
    (handleInsert id "ab\ncd!".data false (initialState []) ⟨0, []⟩).2.1 =
      (⟨0, []⟩ : Registry) ∧
    (handleInsert id "ab\ncd!".data false (initialState []) ⟨0, []⟩).1.value =
      "ab↵cd!".data ∧
    (handleInsert id "a\nb".data false (initialState []) ⟨0, []⟩).2.1 =
      (⟨0, []⟩ : Registry) ∧
    (handleInsert id "a\nb".data false (initialState []) ⟨0, []⟩).1.value =
      "a↵b".data :=
  ⟨by decide,
   (((claim_C2_paste_classification id "a\nb\nc\nd\ne\nf\ng".data false
       (initialState []) ⟨0, []⟩ (by decide)).1 (by decide)).1
     (by decide)).1.trans (by decide),
   (((claim_C2_paste_classification id "a\nb\nc\nd\ne\nf\ng".data false
       (initialState []) ⟨0, []⟩ (by decide)).1 (by decide)).1
     (by decide)).2.1.trans (by decide),
   (((claim_C2_paste_classification id "a\nb\nc\nd\ne\nf\ng".data false
       (initialState []) ⟨0, []⟩ (by decide)).1 (by decide)).1
     (by decide)).2.2.trans (by decide),
   (((claim_C2_paste_classification id "ab\ncd!".data false
       (initialState []) ⟨0, []⟩ (by decide)).1 (by decide)).2 (by decide)).1,
   (((claim_C2_paste_classification id "ab\ncd!".data false
       (initialState []) ⟨0, []⟩ (by decide)).1 (by decide)).2
     (by decide)).2.1.trans (by decide),
   ((claim_C2_paste_classification id "a\nb".data false
       (initialState []) ⟨0, []⟩ (by decide)).2 (by decide)).1,
   ((claim_C2_paste_classification id "a\nb".data false
       (initialState []) ⟨0, []⟩ (by decide)).2 (by decide)).2.1.trans
     (by decide)⟩

/-- C5, counterexample: the source wraps neither the translator call nor the
`allocate` call in any `try`/`catch`, so a throwing translator propagates
out of `handleInsert`: on the six-character paste `"abcdef"` with a failing
translator the insert path produces no result at all (the exception escapes)
instead of falling back to inserting the raw visually-sanitized text. -/
theorem claim_C5_counterexample :
    handleInsertE (fun _ => Except.error "translate failed")
      (fun r f => Except.ok (allocatePaste r f)) "abcdef".data true
      (initialState []) ⟨0, []⟩ = Except.error "translate failed" ∧
    (handleInsertE (fun _ => Except.error "translate failed")
      (fun r f => Except.ok (allocatePaste r f)) "abcdef".data true
      (initialState []) ⟨0, []⟩).toOption = none := by
  exact ⟨rfl, rfl⟩

/-- C5, amended: when the clipboard/image translator or the paste registry's
`allocate` throws during an insertion, the exception propagates uncaught out
of `handleInsert` — no fallback insertion of the raw sanitized text happens,
the buffer and registry are left unmodified, and the keystroke is lost. -/
theorem claim_C5_no_fallback (tr : List Char → Except String (List Char))
    (alloc : Registry → List Char → Except String (Nat × Registry))
    (text : List Char) (flag : Bool) (s : InputState) (reg : Registry)
    (msg : String) :
    (flag = true ∨ 5 < text.length →
      tr text = Except.error msg →
      handleInsertE tr alloc text flag s reg = Except.error msg) ∧
    (∀ t : List Char, flag = true ∨ 5 < text.length →
      tr text = Except.ok t →
      500 < text.length ∨ 5 < countLines t →
      alloc reg t = Except.error msg →
      handleInsertE tr alloc text flag s reg = Except.error msg) := by
  constructor
  · intro hroute htr
    have hlarge : (flag || decide (5 < text.length)) = true := by
      rcases hroute with h1 | h1 <;> simp [h1]
    simp [handleInsertE, hlarge, htr]
  · intro t hroute htr hbig halloc
    have hlarge : (flag || decide (5 < text.length)) = true := by
      rcases hroute with h1 | h1 <;> simp [h1]
    simp [handleInsertE, hlarge, htr, hbig, halloc]

theorem claim_C5_witness :
    (true = true ∨ 5 < "abcdef".data.length) ∧
    handleInsertE (fun _ => Except.error "boom")
      (fun r f => Except.ok (allocatePaste r f)) "abcdef".data true
      (initialState []) ⟨0, []⟩ = Except.error "boom" ∧
    handleInsertE (fun t => Except.ok t) (fun _ _ => Except.error "alloc down")
      "a\nb\nc\nd\ne\nf\ng".data true (initialState []) ⟨0, []⟩ =
      Except.error "alloc down" :=
  ⟨Or.inl rfl,
   (claim_C5_no_fallback (fun _ => Except.error "boom")
     (fun r f => Except.ok (allocatePaste r f)) "abcdef".data true
     (initialState []) ⟨0, []⟩ "boom").1 (Or.inl rfl) rfl,
   (claim_C5_no_fallback (fun t => Except.ok t)
     (fun _ _ => Except.error "alloc down") "a\nb\nc\nd\ne\nf\ng".data true
     (initialState []) ⟨0, []⟩ "alloc down").2 "a\nb\nc\nd\ne\nf\ng".data
     (Or.inl rfl) rfl (by decide) rfl⟩

end PasteAware
